import Mathlib

/-!
Verification development for the MelodyLingo vocabulary-learning app.

The definitions below are shallow embeddings of the app's TypeScript source:
the multi-provider AI completion gateway (`src/services/aiClient.ts`), the
response-interpretation steps of `extractVocabulary` / `evaluateAnswer` and the
free-translation template parser (`src/services/gemini.ts`), the Factory
screen's extraction loop (`src/screens/FactoryScreen.tsx`), the History
screen's song-deletion cascade (`src/screens/HistoryScreen.tsx`), the Treasury
screen's practice-answer submission (`src/screens/TreasuryScreen.tsx`), and the
`StorageService` persistence wrapper (`src/services/storage.ts`).

JavaScript strings are modelled as Lean `String`, JS numbers that only ever
hold integers as `Int`/`Nat`, and the generation temperature (never computed
with, only forwarded) as `Rat`.  `undefined` string fields are collapsed to
`""` wherever the source only tests truthiness or compares against non-empty
literals, which preserves the source's behaviour exactly on those operations.
-/

namespace MelodyLingo

/-! ## JSON values

The remote model replies with free text from which the app slices a JSON
substring and feeds it to the JavaScript builtin `JSON.parse`.  `Json` models
the parsed value domain.  Numbers are modelled as integers: every numeric
payload the interpreters handle (scores, timestamps) is integral, and no
theorem below touches a fractional literal. -/

inductive Json where
  | null : Json
  | bool (b : Bool) : Json
  | num (n : Int) : Json
  | str (s : String) : Json
  | arr (elems : List Json) : Json
  | obj (fields : List (String × Json)) : Json

/-- JSON insignificant whitespace (RFC 8259: space, tab, LF, CR). -/
def jsonWs (c : Char) : Bool :=
  c = ' ' || c = '\t' || c = '\n' || c = '\r'

/-- Numeric value of a nonempty list of decimal digits. -/
def digitsToNat (ds : List Char) : Nat :=
  ds.foldl (fun n c => n * 10 + (c.toNat - '0'.toNat)) 0

/-- Decode a 4-digit hex escape; `none` when a character is not a hex digit. -/
def hexVal (c : Char) : Option Nat :=
  if '0' ≤ c ∧ c ≤ '9' then some (c.toNat - '0'.toNat)
  else if 'a' ≤ c ∧ c ≤ 'f' then some (c.toNat - 'a'.toNat + 10)
  else if 'A' ≤ c ∧ c ≤ 'F' then some (c.toNat - 'A'.toNat + 10)
  else none

/-- Lex a JSON string body (the part after the opening quote).  Returns the
decoded content and the remaining characters after the closing quote.
Raw control characters below U+0020 are rejected, as `JSON.parse` does. -/
def lexString : Nat → List Char → Option (List Char × List Char)
  | 0, _ => none
  | _ + 1, [] => none
  | fuel + 1, c :: cs =>
    if c = '"' then some ([], cs)
    else if c = '\\' then
      match cs with
      | [] => none
      | e :: cs' =>
        let decoded : Option (Char × List Char) :=
          if e = '"' then some ('"', cs')
          else if e = '\\' then some ('\\', cs')
          else if e = '/' then some ('/', cs')
          else if e = 'b' then some ('\x08', cs')
          else if e = 'f' then some ('\x0c', cs')
          else if e = 'n' then some ('\n', cs')
          else if e = 'r' then some ('\r', cs')
          else if e = 't' then some ('\t', cs')
          else if e = 'u' then
            match cs' with
            | h1 :: h2 :: h3 :: h4 :: cs'' =>
              match hexVal h1, hexVal h2, hexVal h3, hexVal h4 with
              | some a, some b, some c', some d =>
                let n := ((a * 16 + b) * 16 + c') * 16 + d
                if n.isValidChar then some (Char.ofNat n, cs'') else none
              | _, _, _, _ => none
            | _ => none
          else none
        match decoded with
        | some (ch, rest) =>
          match lexString fuel rest with
          | some (body, rest') => some (ch :: body, rest')
          | none => none
        | none => none
    else if c.toNat < 0x20 then none
    else
      match lexString fuel cs with
      | some (body, rest) => some (c :: body, rest)
      | none => none

mutual

/-- Parse one JSON value at the head of the input (leading whitespace already
skipped).  Fuel-driven recursion; `Json.parse` supplies ample fuel. -/
def parseValue : Nat → List Char → Option (Json × List Char)
  | 0, _ => none
  | _ + 1, [] => none
  | fuel + 1, c :: cs =>
    if c = '[' then
      parseElems fuel (cs.dropWhile jsonWs)
    else if c = '\x7b' then
      parseFields fuel (cs.dropWhile jsonWs)
    else if c = '"' then
      match lexString fuel cs with
      | some (body, rest) => some (.str ⟨body⟩, rest)
      | none => none
    else if c = 't' then
      match cs with
      | 'r' :: 'u' :: 'e' :: rest => some (.bool true, rest)
      | _ => none
    else if c = 'f' then
      match cs with
      | 'a' :: 'l' :: 's' :: 'e' :: rest => some (.bool false, rest)
      | _ => none
    else if c = 'n' then
      match cs with
      | 'u' :: 'l' :: 'l' :: rest => some (.null, rest)
      | _ => none
    else if c = '-' then
      let ds := cs.takeWhile Char.isDigit
      if ds.isEmpty then none
      else some (.num (-(digitsToNat ds : Int)), cs.dropWhile Char.isDigit)
    else if c.isDigit then
      let ds := (c :: cs).takeWhile Char.isDigit
      some (.num (digitsToNat ds : Int), (c :: cs).dropWhile Char.isDigit)
    else none

/-- Parse array elements after the opening bracket (whitespace skipped). -/
def parseElems : Nat → List Char → Option (Json × List Char)
  | 0, _ => none
  | _ + 1, [] => none
  | fuel + 1, c :: cs =>
    if c = ']' then some (.arr [], cs)
    else
      match parseValue fuel (c :: cs) with
      | none => none
      | some (v, rest) => parseElemsTail fuel v [] (rest.dropWhile jsonWs)

/-- Parse the `, value`* `]` tail of an array. -/
def parseElemsTail : Nat → Json → List Json → List Char → Option (Json × List Char)
  | 0, _, _, _ => none
  | _ + 1, _, _, [] => none
  | fuel + 1, v, acc, c :: cs =>
    if c = ']' then some (.arr ((v :: acc).reverse), cs)
    else if c = ',' then
      match parseValue fuel (cs.dropWhile jsonWs) with
      | none => none
      | some (v', rest) => parseElemsTail fuel v' (v :: acc) (rest.dropWhile jsonWs)
    else none

/-- Parse object members after the opening brace (whitespace skipped). -/
def parseFields : Nat → List Char → Option (Json × List Char)
  | 0, _ => none
  | _ + 1, [] => none
  | fuel + 1, c :: cs =>
    if c = '\x7d' then some (.obj [], cs)
    else if c = '"' then
      match lexString fuel cs with
      | none => none
      | some (key, rest) =>
        match rest.dropWhile jsonWs with
        | ':' :: rest' =>
          match parseValue fuel (rest'.dropWhile jsonWs) with
          | none => none
          | some (v, rest'') =>
            parseFieldsTail fuel (⟨key⟩, v) [] (rest''.dropWhile jsonWs)
        | _ => none
    else none

/-- Parse the `, "key": value`* `\x7d` tail of an object. -/
def parseFieldsTail : Nat → (String × Json) → List (String × Json) → List Char →
    Option (Json × List Char)
  | 0, _, _, _ => none
  | _ + 1, _, _, [] => none
  | fuel + 1, kv, acc, c :: cs =>
    if c = '\x7d' then some (.obj ((kv :: acc).reverse), cs)
    else if c = ',' then
      match cs.dropWhile jsonWs with
      | '"' :: cs' =>
        match lexString fuel cs' with
        | none => none
        | some (key, rest) =>
          match rest.dropWhile jsonWs with
          | ':' :: rest' =>
            match parseValue fuel (rest'.dropWhile jsonWs) with
            | none => none
            | some (v, rest'') =>
              parseFieldsTail fuel (⟨key⟩, v) (kv :: acc) (rest''.dropWhile jsonWs)
          | _ => none
      | _ => none
    else none

end

/-- Model of the JavaScript builtin `JSON.parse` on the value domain used by
this app: one value, optionally surrounded by whitespace, covering the whole
string.  Numbers are restricted to optionally-signed integer literals (the only
numeric shapes the app's payloads use); fraction/exponent forms are rejected
rather than approximated. -/
def Json.parse (s : String) : Option Json :=
  match parseValue (s.length + 8) (s.data.dropWhile jsonWs) with
  | some (v, rest) => if (rest.dropWhile jsonWs).isEmpty then some v else none
  | none => none

/-! ## The greedy bracket-slice regular expressions

`extractVocabulary` slices the raw completion with `text.match(/\[[\s\S]*\]/)`
and `evaluateAnswer` with `text.match(/\{[\s\S]*\}/)`.  Both are greedy, so a
successful match runs from the first opener in the text to the last closer
(which must lie strictly after that opener); with no such pair there is no
match.  `matchSpanL` embeds exactly that. -/

/-- List-level model of `text.match(/o[\s\S]*c/)` for an opener/closer pair:
drop everything before the first opener, then cut after the last closer. -/
def matchSpanL (opener closer : Char) (cs : List Char) : Option (List Char) :=
  let fromOpener := cs.dropWhile (fun x => !(x = opener))
  let tail := fromOpener.reverse.dropWhile (fun x => !(x = closer))
  if tail.isEmpty then none else some tail.reverse

/-- String-level wrapper of `matchSpanL`. -/
def matchSpan (opener closer : Char) (s : String) : Option String :=
  (matchSpanL opener closer s.data).map fun cs => ⟨cs⟩

/-! ## Response interpreters (src/services/gemini.ts) -/

/-- Result shape of `extractVocabulary`'s interpretation step: the parsed
`words` payload (items untouched, as the source performs no per-item
validation) and the optional error. -/
structure VocabResult where
  words : List Json
  error : Option String

/-- Error text produced when `JSON.parse` throws inside `extractVocabulary`'s
try/catch (`API请求失败: ` + exception message).  The JS engine's exact
message text is abstracted by a fixed marker. -/
def jsonParseFailureMessage : String := "API请求失败: JSON parse error"

/-- Interpretation step of `extractVocabulary` on the raw completion text:
slice the greedy `[...]` span; no span → `\x7b words: [] \x7d` fallback;
parsed non-array → empty list (the `Array.isArray` guard); a `JSON.parse`
exception is caught by the surrounding try/catch and produces the
empty-words-plus-error result. -/
def extractVocabularyInterpret (text : String) : VocabResult :=
  match matchSpan '[' ']' text with
  | none => ⟨[], none⟩
  | some jsonText =>
    match Json.parse jsonText with
    | some (.arr ws) => ⟨ws, none⟩
    | some _ => ⟨[], none⟩
    | none => ⟨[], some jsonParseFailureMessage⟩

/-- Fallback object returned by `evaluateAnswer` when the completion contains
no `{...}` span. -/
def evalNoMatchFallback : Json :=
  .obj [("isCorrect", .bool false), ("score", .num 0), ("feedback", .str "无法评估答案")]

/-- Result object produced by `evaluateAnswer`'s catch block when `JSON.parse`
throws (feedback `评估出错: ` + message, plus the error field); the engine's
message text is abstracted by a fixed marker. -/
def evalParseFailureResult : Json :=
  .obj [("isCorrect", .bool false), ("score", .num 0),
        ("feedback", .str "评估出错: JSON parse error"),
        ("error", .str "API请求失败: JSON parse error")]

/-- Interpretation step of `evaluateAnswer` on the raw completion text: slice
the greedy `{...}` span; no span → fixed fallback object; otherwise the value
`JSON.parse` returns is passed through unvalidated. -/
def evaluateAnswerInterpret (text : String) : Json :=
  match matchSpan '\x7b' '\x7d' text with
  | none => evalNoMatchFallback
  | some jsonText =>
    match Json.parse jsonText with
    | some v => v
    | none => evalParseFailureResult

/-! ### Slicing lemmas -/

theorem dropWhile_append_of_forall {p : Char → Bool} {l₁ l₂ : List Char}
    (h : ∀ x ∈ l₁, p x) : (l₁ ++ l₂).dropWhile p = l₂.dropWhile p := by
  induction l₁ with
  | nil => rfl
  | cons a as ih =>
    simp only [List.cons_append, List.dropWhile_cons, h a (by simp)]
    exact ih fun x hx => h x (by simp [hx])

theorem dropWhile_cons_eq_of_neg {p : Char → Bool} {a : Char} {l : List Char}
    (h : p a = false) : (a :: l).dropWhile p = a :: l := by
  simp [List.dropWhile_cons, h]

theorem dropWhile_head_false {p : Char → Bool} {l : List Char} {a : Char} {as : List Char}
    (h : l.dropWhile p = a :: as) : p a = false := by
  induction l with
  | nil => simp at h
  | cons b bs ih =>
    rw [List.dropWhile_cons] at h
    by_cases hb : p b
    · rw [if_pos hb] at h
      exact ih h
    · rw [if_neg hb] at h
      cases h
      simpa using hb

/-- A successful greedy span match on `pre ++ s ++ post` returns exactly `s`
whenever the opener does not occur in `pre`, the closer does not occur in
`post`, and `s` itself starts with the opener and ends with the closer. -/
theorem matchSpanL_append {o c : Char} {pre s post : List Char}
    (hpre : ∀ x ∈ pre, x ≠ o) (hpost : ∀ x ∈ post, x ≠ c)
    (hhead : s.head? = some o) (hlast : s.getLast? = some c) (hoc : o ≠ c) :
    matchSpanL o c (pre ++ s ++ post) = some s := by
  obtain ⟨s', rfl⟩ : ∃ s', s = o :: s' := by
    cases s with
    | nil => simp at hhead
    | cons a as =>
      have ha : a = o := by simpa using hhead
      exact ⟨as, by rw [ha]⟩
  have hs' : s' ≠ [] := by
    rintro rfl
    simp [List.getLast?] at hlast
    exact hoc hlast
  obtain ⟨s'', rfl⟩ : ∃ s'', s' = s'' ++ [c] := by
    refine ⟨s'.dropLast, ?_⟩
    have h1 : s'.getLast hs' = c := by
      have h0 := List.getLast?_eq_getLast s' hs'
      have h2 : (o :: s').getLast? = s'.getLast? := by
        cases s' with
        | nil => exact absurd rfl hs'
        | cons b bs => simp [List.getLast?_cons_cons]
      rw [h2, h0] at hlast
      exact Option.some.inj hlast
    rw [← h1]
    exact (List.dropLast_append_getLast hs').symm
  unfold matchSpanL
  have step1 : (pre ++ (o :: s'' ++ [c]) ++ post).dropWhile (fun x => !(x = o)) =
      (o :: s'' ++ [c]) ++ post := by
    rw [List.append_assoc]
    rw [dropWhile_append_of_forall (fun x hx => by simp [hpre x hx])]
    exact dropWhile_cons_eq_of_neg (by simp)
  rw [show pre ++ (o :: (s'' ++ [c])) ++ post = pre ++ (o :: s'' ++ [c]) ++ post by simp]
  rw [step1]
  have step2 : ((o :: s'' ++ [c]) ++ post).reverse.dropWhile (fun x => !(x = c)) =
      (o :: s'' ++ [c]).reverse := by
    rw [List.reverse_append]
    rw [dropWhile_append_of_forall (fun x hx => by
      simp [hpost x (by simpa using hx)])]
    have : (o :: s'' ++ [c]).reverse = c :: (o :: s'').reverse := by simp
    rw [this]
    exact dropWhile_cons_eq_of_neg (by simp)
  simp only [step2]
  simp

/-- The membership-level reading of a successful greedy span match: the text
contains an opener with a closer somewhere after it.  Contrapositive: texts
with no such pair produce no match. -/
theorem matchSpanL_some_split {o c : Char} (hoc : o ≠ c) {t r : List Char}
    (h : matchSpanL o c t = some r) :
    ∃ as mid bs, t = as ++ o :: (mid ++ c :: bs) := by
  unfold matchSpanL at h
  set d := t.dropWhile (fun x => !(x = o)) with hd
  set r' := d.reverse.dropWhile (fun x => !(x = c)) with hr'
  by_cases hemp : r'.isEmpty
  · simp [hemp] at h
  · simp only [hemp, if_false] at h
    have hr'ne : r' ≠ [] := by simpa [List.isEmpty_iff] using hemp
    obtain ⟨rc, rs, hr'eq⟩ := List.exists_cons_of_ne_nil hr'ne
    have hrc : rc = c := by
      have hx : (fun x => !(x = c)) rc = false :=
        dropWhile_head_false (hr' ▸ hr'eq)
      simpa using hx
    have hdne : d ≠ [] := by
      intro hnil
      rw [hnil] at hr'
      simp [hr'] at hr'ne
    obtain ⟨dh, dt, hdeq⟩ := List.exists_cons_of_ne_nil hdne
    have hdh : dh = o := by
      have hx : (fun x => !(x = o)) dh = false :=
        dropWhile_head_false (hd ▸ hdeq)
      simpa using hx
    -- t = takeWhile ++ d,  d.reverse = takeWhile' ++ r'
    have ht : t = t.takeWhile (fun x => !(x = o)) ++ d := by
      rw [hd]; exact (List.takeWhile_append_dropWhile _ _).symm
    have hdrev : d.reverse = d.reverse.takeWhile (fun x => !(x = c)) ++ r' := by
      rw [hr']; exact (List.takeWhile_append_dropWhile _ _).symm
    have hd2 : d = r'.reverse ++ (d.reverse.takeWhile (fun x => !(x = c))).reverse := by
      have hy := congrArg List.reverse hdrev
      simpa using hy
    -- r'.reverse ends with c and, being a nonempty prefix of d, starts with o
    obtain ⟨m, hm⟩ : ∃ m, r'.reverse = o :: m ++ [c] := by
      have hrrev : r'.reverse = rs.reverse ++ [c] := by rw [hr'eq, hrc]; simp
      cases hrs : rs.reverse with
      | nil =>
        exfalso
        rw [hrs, List.nil_append] at hrrev
        have hz : d = [c] ++ (d.reverse.takeWhile (fun x => !(x = c))).reverse := by
          rw [← hrrev]; exact hd2
        rw [hdeq] at hz
        have hw : dh = c := by simpa using congrArg (fun l => l.headD 'x') hz
        rw [hdh] at hw
        exact hoc hw
      | cons b bs =>
        refine ⟨bs, ?_⟩
        rw [hrs] at hrrev
        have hb : b = o := by
          have hz : d = (b :: bs ++ [c]) ++
              (d.reverse.takeWhile (fun x => !(x = c))).reverse := by
            rw [← hrrev]; exact hd2
          rw [hdeq] at hz
          have hw : dh = b := by simpa using congrArg (fun l => l.headD 'x') hz
          rw [← hw, hdh]
        rw [hrrev, hb]
    refine ⟨t.takeWhile (fun x => !(x = o)), m,
      (d.reverse.takeWhile (fun x => !(x = c))).reverse, ?_⟩
    calc t = t.takeWhile (fun x => !(x = o)) ++ d := ht
      _ = t.takeWhile (fun x => !(x = o)) ++
          (r'.reverse ++ (d.reverse.takeWhile (fun x => !(x = c))).reverse) :=
        congrArg (fun l => t.takeWhile (fun x => !(x = o)) ++ l) hd2
      _ = t.takeWhile (fun x => !(x = o)) ++
          ((o :: m ++ [c]) ++ (d.reverse.takeWhile (fun x => !(x = c))).reverse) :=
        congrArg (fun l => t.takeWhile (fun x => !(x = o)) ++
          (l ++ (d.reverse.takeWhile (fun x => !(x = c))).reverse)) hm
      _ = t.takeWhile (fun x => !(x = o)) ++
          (o :: (m ++ c :: (d.reverse.takeWhile (fun x => !(x = c))).reverse)) := by simp

theorem string_data_append (a b : String) : (a ++ b).data = a.data ++ b.data := rfl

theorem string_mk_data (s : String) : (⟨s.data⟩ : String) = s := rfl

/-- Claim C2 as stated: a well-formed JSON array embedded in ARBITRARY prose is
always extracted and parsed exactly by `extractVocabulary`'s interpretation
step. -/
def responseInterpreterClaim : Prop :=
  ∀ (pre s post : String) (v : List Json),
    Json.parse s = some (.arr v) →
    extractVocabularyInterpret (pre ++ s ++ post) = ⟨v, none⟩

/-- C2 counterexample: in `x[y] [1]` the single well-formed JSON array `[1]`
is surrounded by prose that itself contains a square bracket, so the greedy
slice spans `[y] [1]`, `JSON.parse` throws, and the interpreter lands in the
catch-block fallback instead of returning the parsed payload. -/
theorem c2_regex_slice_counterexample : ¬ responseInterpreterClaim := by
  intro h
  have h1 := h "x[y] " "[1]" "" [Json.num 1] (by rfl)
  have h2 : (extractVocabularyInterpret ("x[y] " ++ "[1]" ++ "")).error =
      some jsonParseFailureMessage := by rfl
  rw [h1] at h2
  exact Option.noConfusion h2

/-- C2 (amended): if the embedded well-formed JSON payload starts/ends with
its bracket pair and the surrounding prose contains no opener before it and no
closer after it, the interpreter extracts and parses exactly that payload; and
a text with no opener-then-closer pair at all yields the documented fallback
(empty words array / default evaluation object) without throwing. -/
theorem c2_regex_slice_amended :
    (∀ (pre s post : String) (v : List Json),
      '[' ∉ pre.data → ']' ∉ post.data →
      s.data.head? = some '[' → s.data.getLast? = some ']' →
      Json.parse s = some (.arr v) →
      extractVocabularyInterpret (pre ++ s ++ post) = ⟨v, none⟩) ∧
    (∀ (pre s post : String) (w : Json),
      '\x7b' ∉ pre.data → '\x7d' ∉ post.data →
      s.data.head? = some '\x7b' → s.data.getLast? = some '\x7d' →
      Json.parse s = some w →
      evaluateAnswerInterpret (pre ++ s ++ post) = w) ∧
    (∀ t : String, (¬ ∃ as mid bs, t.data = as ++ '[' :: (mid ++ ']' :: bs)) →
      extractVocabularyInterpret t = ⟨[], none⟩) ∧
    (∀ t : String, (¬ ∃ as mid bs, t.data = as ++ '\x7b' :: (mid ++ '\x7d' :: bs)) →
      evaluateAnswerInterpret t = evalNoMatchFallback) := by
  refine ⟨?_, ?_, ?_, ?_⟩
  · intro pre s post v hpre hpost hhead hlast hparse
    have hspan : matchSpan '[' ']' (pre ++ s ++ post) = some s := by
      unfold matchSpan
      rw [show (pre ++ s ++ post).data = pre.data ++ s.data ++ post.data from rfl]
      rw [matchSpanL_append (by intro x hx he; subst he; exact hpre hx)
        (by intro x hx he; subst he; exact hpost hx) hhead hlast (by decide)]
      rfl
    unfold extractVocabularyInterpret
    rw [hspan]
    simp only [hparse]
  · intro pre s post w hpre hpost hhead hlast hparse
    have hspan : matchSpan '\x7b' '\x7d' (pre ++ s ++ post) = some s := by
      unfold matchSpan
      rw [show (pre ++ s ++ post).data = pre.data ++ s.data ++ post.data from rfl]
      rw [matchSpanL_append (by intro x hx he; subst he; exact hpre hx)
        (by intro x hx he; subst he; exact hpost hx) hhead hlast (by decide)]
      rfl
    unfold evaluateAnswerInterpret
    rw [hspan]
    simp only [hparse]
  · intro t hno
    unfold extractVocabularyInterpret
    cases hmatch : matchSpan '[' ']' t with
    | none => rfl
    | some sp =>
      exfalso
      obtain ⟨cs, hcs, _⟩ := Option.map_eq_some'.mp hmatch
      exact hno (matchSpanL_some_split (by decide) hcs)
  · intro t hno
    unfold evaluateAnswerInterpret
    cases hmatch : matchSpan '\x7b' '\x7d' t with
    | none => rfl
    | some sp =>
      exfalso
      obtain ⟨cs, hcs, _⟩ := Option.map_eq_some'.mp hmatch
      exact hno (matchSpanL_some_split (by decide) hcs)

/-- Witness for the amended C2 at concrete inputs: prose-wrapped array and
object payloads are extracted and parsed, and bracket-free texts fall back. -/
theorem c2_regex_slice_witness :
    extractVocabularyInterpret ("The words are: " ++ "[\"ephemeral\", \"sonder\"]" ++ " done.") =
      ⟨[Json.str "ephemeral", Json.str "sonder"], none⟩ ∧
    evaluateAnswerInterpret ("Sure! " ++ "\x7b\"isCorrect\": true, \"score\": 85\x7d" ++ " bye") =
      Json.obj [("isCorrect", Json.bool true), ("score", Json.num 85)] ∧
    extractVocabularyInterpret "no array span here" = ⟨[], none⟩ ∧
    evaluateAnswerInterpret "no object span here" = evalNoMatchFallback := by
  refine ⟨?_, ?_, ?_, ?_⟩
  · exact c2_regex_slice_amended.1 "The words are: " "[\"ephemeral\", \"sonder\"]" " done."
      [Json.str "ephemeral", Json.str "sonder"]
      (by decide) (by decide) (by rfl) (by rfl) (by rfl)
  · exact c2_regex_slice_amended.2.1 "Sure! " "\x7b\"isCorrect\": true, \"score\": 85\x7d" " bye"
      (Json.obj [("isCorrect", Json.bool true), ("score", Json.num 85)])
      (by decide) (by decide) (by rfl) (by rfl) (by rfl)
  · refine c2_regex_slice_amended.2.2.1 "no array span here" ?_
    rintro ⟨as, mid, bs, hsplit⟩
    have hmem : '[' ∈ "no array span here".data := by rw [hsplit]; simp
    exact absurd hmem (by decide)
  · refine c2_regex_slice_amended.2.2.2 "no object span here" ?_
    rintro ⟨as, mid, bs, hsplit⟩
    have hmem : '\x7b' ∈ "no object span here".data := by rw [hsplit]; simp
    exact absurd hmem (by decide)

/-! ## Free-translation template parsing (parseTranslationResponse)

`parseTranslationResponse` extracts three fields with three independent
JavaScript regular expressions:

  `/Score:\s*(\d+)\s*\/\s*100/i`, `/Correct:\s*"([^"]+)"/i`, `/Reason:\s*(.+)/i`

Each is embedded below as a leftmost-match scanner.  All character classes in
these patterns are pairwise disjoint except `\s*` before `(.+)`, so greedy
matching with backtracking collapses to the deterministic scans implemented
here; the one genuine backtracking point (`\s*` may hand whitespace back to
`.+` when the line runs out) is reproduced in `tryReasonAt`. -/

/-- Character class of the JavaScript `\s` (whitespace) escape. -/
def jsWsChar (ch : Char) : Bool :=
  ch = ' ' || ch = '\t' || ch = '\n' || ch = '\r' || ch = '\x0b' || ch = '\x0c' ||
  ch = '\u00A0' || ch = '\u1680' || ('\u2000' ≤ ch && ch ≤ '\u200A') ||
  ch = '\u2028' || ch = '\u2029' || ch = '\u202F' || ch = '\u205F' ||
  ch = '\u3000' || ch = '\uFEFF'

/-- Line terminators, the characters the JavaScript `.` does not match. -/
def lineTerm (ch : Char) : Bool :=
  ch = '\n' || ch = '\r' || ch = '\u2028' || ch = '\u2029'

/-- Case-insensitive literal prefix match; returns the remaining input. -/
def ciStarts : List Char → List Char → Option (List Char)
  | [], cs => some cs
  | _ :: _, [] => none
  | p :: ps, c :: cs => if p.toLower = c.toLower then ciStarts ps cs else none

/-- Attempt `Score:\s*(\d+)\s*\/\s*100` at the current position; the captured
digit group is returned through `parseInt`. -/
def tryScoreAt (cs : List Char) : Option Nat :=
  match ciStarts "score:".data cs with
  | none => none
  | some r1 =>
    let r2 := r1.dropWhile jsWsChar
    let digits := r2.takeWhile Char.isDigit
    if digits.isEmpty then none
    else
      match (r2.dropWhile Char.isDigit).dropWhile jsWsChar with
      | '/' :: r4 =>
        match r4.dropWhile jsWsChar with
        | '1' :: '0' :: '0' :: _ => some (digitsToNat digits)
        | _ => none
      | _ => none

/-- Attempt `Correct:\s*"([^"]+)"` at the current position. -/
def tryCorrectAt (cs : List Char) : Option String :=
  match ciStarts "correct:".data cs with
  | none => none
  | some r1 =>
    match r1.dropWhile jsWsChar with
    | '"' :: r2 =>
      let content := r2.takeWhile (fun c => !(c = '"'))
      if content.isEmpty then none
      else if (r2.dropWhile (fun c => !(c = '"'))).isEmpty then none
      else some ⟨content⟩
    | _ => none

/-- Attempt `Reason:\s*(.+)` at the current position.  The greedy `\s*` first
swallows the whole whitespace run; if nothing matchable by `.` follows, it
backtracks to the last whitespace character that is not a line terminator. -/
def tryReasonAt (cs : List Char) : Option String :=
  match ciStarts "reason:".data cs with
  | none => none
  | some r1 =>
    let w := r1.takeWhile jsWsChar
    let rest := r1.dropWhile jsWsChar
    match rest with
    | _ :: _ => some ⟨rest.takeWhile (fun c => !lineTerm c)⟩
    | [] =>
      match w.reverse.dropWhile lineTerm with
      | [] => none
      | x :: _ => some ⟨[x]⟩

/-- Leftmost-match scan: try the pattern at each successive start position. -/
def scanFirst {α : Type} (f : List Char → Option α) : List Char → Option α
  | [] => f []
  | c :: cs =>
    match f (c :: cs) with
    | some a => some a
    | none => scanFirst f cs

/-- Model of `response.match(/Score:\s*(\d+)\s*\/\s*100/i)`, capture group 1
through `parseInt`. -/
def matchScore (s : String) : Option Nat := scanFirst tryScoreAt s.data

/-- Model of `response.match(/Correct:\s*"([^"]+)"/i)`, capture group 1. -/
def matchCorrect (s : String) : Option String := scanFirst tryCorrectAt s.data

/-- Model of `response.match(/Reason:\s*(.+)/i)`, capture group 1. -/
def matchReason (s : String) : Option String := scanFirst tryReasonAt s.data

/-- Model of the JavaScript `String.prototype.trim` (strips `\s` characters
from both ends). -/
def jsTrim (s : String) : String :=
  ⟨((s.data.dropWhile jsWsChar).reverse.dropWhile jsWsChar).reverse⟩

/-- Result record of `parseTranslationResponse`. -/
structure TranslationEvaluation where
  isCorrect : Bool
  score : Nat
  correctAnswer : String
  feedback : String
  deriving Repr, DecidableEq

/-- Embedding of `parseTranslationResponse` (src/services/gemini.ts): each of
the three fields degrades to its own default when its pattern fails; pass/fail
is `score >= 70`.  The `userAnswer` parameter is accepted and ignored exactly
as in the source.  The source's try/catch is dead code (none of the operations
inside can throw), so the function is the try-branch alone. -/
def parseTranslationResponse (response : String) (userAnswer : String) :
    TranslationEvaluation :=
  let score := (matchScore response).getD 0
  let correctAnswer := (matchCorrect response).getD ""
  let feedback :=
    match matchReason response with
    | some r => jsTrim r
    | none => "无法评估答案"
  { isCorrect := decide (70 ≤ score), score := score,
    correctAnswer := correctAnswer, feedback := feedback }

/-- C6: on the text `Score: 72/100\nCorrect: "the answer"\nReason: 语法正确`
the template parser yields exactly isCorrect true, score 72, correctAnswer
`the answer`, feedback `语法正确`; and in general the parser's isCorrect output
is true exactly when the parsed score is at least 70. -/
theorem c6_translation_template :
    parseTranslationResponse "Score: 72/100\nCorrect: \"the answer\"\nReason: 语法正确" "ua" =
      ⟨true, 72, "the answer", "语法正确"⟩ ∧
    ∀ (r ua : String),
      (parseTranslationResponse r ua).isCorrect = true ↔
        70 ≤ (parseTranslationResponse r ua).score := by
  constructor
  · decide
  · intro r ua
    simp [parseTranslationResponse]

/-- C7: the template parser is total and degrades each of its three fields
independently to its documented default when that field's pattern fails to
match, never failing the whole parse. -/
theorem c7_translation_template_degrade :
    ∀ (r ua : String),
      (matchScore r = none → (parseTranslationResponse r ua).score = 0) ∧
      (matchCorrect r = none → (parseTranslationResponse r ua).correctAnswer = "") ∧
      (matchReason r = none → (parseTranslationResponse r ua).feedback = "无法评估答案") := by
  intro r ua
  refine ⟨fun h => ?_, fun h => ?_, fun h => ?_⟩ <;>
    simp [parseTranslationResponse, h]

/-- Witness for C7 on a reply matching none of the three patterns. -/
theorem c7_translation_template_witness :
    (parseTranslationResponse "untemplated reply" "x").score = 0 ∧
    (parseTranslationResponse "untemplated reply" "x").correctAnswer = "" ∧
    (parseTranslationResponse "untemplated reply" "x").feedback = "无法评估答案" :=
  ⟨(c7_translation_template_degrade "untemplated reply" "x").1 (by decide),
   (c7_translation_template_degrade "untemplated reply" "x").2.1 (by decide),
   (c7_translation_template_degrade "untemplated reply" "x").2.2 (by decide)⟩

/-! ## The Unified Completion Gateway (callAI, src/services/aiClient.ts)

`callAI` destructures optional settings, dispatches on `apiProvider`, builds
one provider request, and wraps every thrown exception into an error result.

The settings record mirrors `UserSettings` (src/types/index.ts) with
`apiProvider` as a raw string: settings loaded from storage are spread over
the defaults without validation, so the runtime value is not confined to the
declared `ApiProvider` union.  `undefined` is collapsed to `""` (both falsy,
and only falsiness/literal comparisons occur).  The network is an oracle from
the issued provider request to either a completion text (`Except.ok`, with the
SDK's `choices[0]?.message?.content || ''` extraction folded in) or a thrown
exception's message (`Except.error`).  `callAI` returns the list of provider
requests it issued (the source issues at most one) alongside the normalized
response. -/

/-- User settings as `callAI` consumes them (aiStyle omitted: unread there). -/
structure UserSettings where
  apiProvider : String
  nvidiaApiKey : String
  geminiApiKey : String
  opencodeApiKey : String
  nvidiaModel : String
  geminiModel : String
  opencodeModel : String
  deriving Repr, DecidableEq

/-- One chat message of the OpenAI-compatible providers. -/
structure ChatMessage where
  role : String
  content : String
  deriving Repr, DecidableEq

/-- The request a provider client would send over the network. -/
inductive ProviderRequest where
  | gemini (apiKey modelName prompt : String)
  | nvidiaChat (apiKey modelName : String) (messages : List ChatMessage)
      (temperature : Rat) (maxTokens : Int)
  | opencodeChat (apiKey modelName : String) (messages : List ChatMessage)
      (temperature : Rat) (maxTokens : Int)
  deriving Repr, DecidableEq

/-- Options of `callAI`; `none` models an omitted field. -/
structure AIOptions where
  temperature : Option Rat := none
  maxTokens : Option Int := none
  systemPrompt : Option String := none

/-- Normalized result of `callAI`. -/
structure AIResponse where
  text : String
  error : Option String
  deriving Repr, DecidableEq

/-- The catch block's `error?.message || error?.toString() || 'Unknown error'`
chain applied to the thrown exception's message. -/
def errorToMessage (e : String) : String :=
  if e = "" then "Unknown error" else e

/-- Settings value seen after `settings || \x7b\x7d` when settings are absent:
every destructured field is undefined, collapsed to `""`. -/
def emptySettings : UserSettings := ⟨"", "", "", "", "", "", ""⟩

/-- The messages array built for the two chat providers: optional system
message (the source tests the system prompt's truthiness) plus the user
prompt. -/
def mkMessages (prompt : String) (systemPrompt : Option String) : List ChatMessage :=
  if systemPrompt.getD "" = "" then [ChatMessage.mk "user" prompt]
  else [ChatMessage.mk "system" (systemPrompt.getD ""), ChatMessage.mk "user" prompt]

/-- The awaited provider call appearing once per branch in the source: issue
the request; a thrown exception (the oracle's `Except.error`) is converted by
the surrounding catch block into `\x7b text: '', error: 'API请求失败: ...' \x7d`. -/
def issueRequest (net : ProviderRequest → Except String String) (req : ProviderRequest) :
    List ProviderRequest × AIResponse :=
  match net req with
  | .ok t => ([req], ⟨t, none⟩)
  | .error e => ([req], ⟨"", some ("API请求失败: " ++ errorToMessage e)⟩)

/-- Embedding of `callAI`: dispatch on the provider string, short-circuit on a
missing key for the two chat providers, otherwise issue exactly one request.
The returned list collects the provider requests issued. -/
def callAI (net : ProviderRequest → Except String String) (prompt : String)
    (settings : Option UserSettings) (options : AIOptions) :
    List ProviderRequest × AIResponse :=
  if (settings.getD emptySettings).apiProvider = "" ∨
      (settings.getD emptySettings).apiProvider = "gemini" then
    issueRequest net (ProviderRequest.gemini (settings.getD emptySettings).geminiApiKey
      (if (settings.getD emptySettings).geminiModel = "" then "gemini-2.5-flash-lite"
       else (settings.getD emptySettings).geminiModel) prompt)
  else if (settings.getD emptySettings).apiProvider = "nvidia" then
    if (settings.getD emptySettings).nvidiaApiKey = "" then
      ([], ⟨"", some "NVIDIA API key is missing"⟩)
    else
      issueRequest net (ProviderRequest.nvidiaChat (settings.getD emptySettings).nvidiaApiKey
        (if (settings.getD emptySettings).nvidiaModel = "" then "moonshotai/kimi-k2.5"
         else (settings.getD emptySettings).nvidiaModel)
        (mkMessages prompt options.systemPrompt)
        (options.temperature.getD (3 / 10)) (options.maxTokens.getD 4096))
  else if (settings.getD emptySettings).apiProvider = "opencode" then
    if (settings.getD emptySettings).opencodeApiKey = "" then
      ([], ⟨"", some "OpenCode API key is missing"⟩)
    else
      issueRequest net (ProviderRequest.opencodeChat (settings.getD emptySettings).opencodeApiKey
        (if (settings.getD emptySettings).opencodeModel = "" then "big-pickle"
         else (settings.getD emptySettings).opencodeModel)
        (mkMessages prompt options.systemPrompt)
        (options.temperature.getD (3 / 10)) (options.maxTokens.getD 4096))
  else
    ([], ⟨"", some "Unknown API provider"⟩)

theorem issueRequest_fst (net : ProviderRequest → Except String String)
    (req : ProviderRequest) : (issueRequest net req).1 = [req] := by
  unfold issueRequest
  cases net req <;> rfl

theorem issueRequest_error {net : ProviderRequest → Except String String}
    {req : ProviderRequest} {e : String} (h : net req = Except.error e) :
    (issueRequest net req).2 = ⟨"", some ("API请求失败: " ++ errorToMessage e)⟩ := by
  unfold issueRequest
  rw [h]

/-- The key `callAI` consults for a given provider string. -/
def keyFor (provider : String) (st : UserSettings) : String :=
  if provider = "gemini" then st.geminiApiKey
  else if provider = "nvidia" then st.nvidiaApiKey
  else st.opencodeApiKey

/-- Claim C1 as stated: for every supported provider, an empty configured key
short-circuits to an error result with no provider request issued. -/
def gatewayEmptyKeyClaim : Prop :=
  ∀ provider ∈ (["gemini", "nvidia", "opencode"] : List String),
    ∀ (net : ProviderRequest → Except String String) (prompt : String)
      (options : AIOptions) (st : UserSettings),
      st.apiProvider = provider → keyFor provider st = "" →
      (callAI net prompt (some st) options).1 = [] ∧
      (callAI net prompt (some st) options).2.error.isSome

/-- C1 counterexample: with provider `gemini` and an empty gemini key, callAI
has no missing-key guard — it builds the Gemini client and issues the request
(and on a successful completion even returns a non-error result). -/
theorem c1_empty_key_counterexample : ¬ gatewayEmptyKeyClaim := by
  intro h
  have h1 := h "gemini" (by simp) (fun _ => Except.ok "hi") "p" {}
    ⟨"gemini", "", "", "", "", "", ""⟩ rfl rfl
  have h2 : (callAI (fun _ => Except.ok "hi") "p"
      (some ⟨"gemini", "", "", "", "", "", ""⟩) {}).1 =
      [ProviderRequest.gemini "" "gemini-2.5-flash-lite" "p"] := rfl
  rw [h2] at h1
  exact List.cons_ne_nil _ _ h1.1

/-- C1 (amended): the missing-key short circuit holds for the two non-default
providers `nvidia` and `opencode`: with an empty key for the selected provider
callAI returns the descriptive error result and issues no provider request.
For the default provider `gemini` there is no such guard (see the
counterexample). -/
theorem c1_empty_key_short_circuit :
    ∀ (net : ProviderRequest → Except String String) (prompt : String)
      (options : AIOptions) (st : UserSettings),
      (st.apiProvider = "nvidia" → st.nvidiaApiKey = "" →
        callAI net prompt (some st) options =
          ([], ⟨"", some "NVIDIA API key is missing"⟩)) ∧
      (st.apiProvider = "opencode" → st.opencodeApiKey = "" →
        callAI net prompt (some st) options =
          ([], ⟨"", some "OpenCode API key is missing"⟩)) := by
  intro net prompt options st
  constructor
  · intro hp hk
    unfold callAI
    simp [hp, hk]
  · intro hp hk
    unfold callAI
    simp [hp, hk]

/-- Witness for the amended C1 at concrete empty-keyed settings. -/
theorem c1_empty_key_witness :
    callAI (fun _ => Except.ok "hi") "p"
      (some ⟨"nvidia", "", "k1", "k2", "m", "m", "m"⟩) {} =
      ([], ⟨"", some "NVIDIA API key is missing"⟩) ∧
    callAI (fun _ => Except.ok "hi") "p"
      (some ⟨"opencode", "k0", "k1", "", "m", "m", "m"⟩) {} =
      ([], ⟨"", some "OpenCode API key is missing"⟩) :=
  ⟨(c1_empty_key_short_circuit (fun _ => Except.ok "hi") "p" {}
      ⟨"nvidia", "", "k1", "k2", "m", "m", "m"⟩).1 rfl rfl,
   (c1_empty_key_short_circuit (fun _ => Except.ok "hi") "p" {}
      ⟨"opencode", "k0", "k1", "", "m", "m", "m"⟩).2 rfl rfl⟩

/-- C8: callAI never propagates an exception: whenever the one provider
request it issued comes back as a thrown exception, the returned result is
exactly text `''` with the prefixed error message. -/
theorem c8_exception_to_result :
    ∀ (net : ProviderRequest → Except String String) (prompt : String)
      (settings : Option UserSettings) (options : AIOptions)
      (req : ProviderRequest) (e : String),
      (callAI net prompt settings options).1 = [req] →
      net req = Except.error e →
      (callAI net prompt settings options).2 =
        ⟨"", some ("API请求失败: " ++ errorToMessage e)⟩ := by
  intro net prompt settings options req e hreq herr
  unfold callAI at hreq ⊢
  split at hreq
  next h1 =>
    rw [if_pos h1]
    rw [issueRequest_fst] at hreq
    obtain rfl : _ = req := by simpa using hreq
    exact issueRequest_error herr
  next h1 =>
    rw [if_neg h1]
    split at hreq
    next h2 =>
      rw [if_pos h2]
      split at hreq
      next h3 => simp at hreq
      next h3 =>
        rw [if_neg h3]
        rw [issueRequest_fst] at hreq
        obtain rfl : _ = req := by simpa using hreq
        exact issueRequest_error herr
    next h2 =>
      rw [if_neg h2]
      split at hreq
      next h3 =>
        rw [if_pos h3]
        split at hreq
        next h4 => simp at hreq
        next h4 =>
          rw [if_neg h4]
          rw [issueRequest_fst] at hreq
          obtain rfl : _ = req := by simpa using hreq
          exact issueRequest_error herr
      next h3 =>
        rw [if_neg h3]
        simp at hreq

/-- Witness for C8: a throwing oracle on the default provider path. -/
theorem c8_exception_to_result_witness :
    (callAI (fun _ => Except.error "boom") "p" none {}).2 =
      ⟨"", some ("API请求失败: " ++ errorToMessage "boom")⟩ :=
  c8_exception_to_result (fun _ => Except.error "boom") "p" none {}
    (ProviderRequest.gemini "" "gemini-2.5-flash-lite" "p") "boom" rfl rfl

/-- Claim C10 as stated: any provider string outside the three supported ones
yields the `Unknown API provider` error without a network call. -/
def unknownProviderClaim : Prop :=
  ∀ (net : ProviderRequest → Except String String) (prompt : String)
    (options : AIOptions) (st : UserSettings),
    st.apiProvider ∉ (["gemini", "nvidia", "opencode"] : List String) →
    callAI net prompt (some st) options = ([], ⟨"", some "Unknown API provider"⟩)

/-- C10 counterexample: the empty provider string is outside the declared
union but is falsy in `!apiProvider`, so callAI falls into the default gemini
branch and issues a network request instead of reporting an unknown
provider. -/
theorem c10_unknown_provider_counterexample : ¬ unknownProviderClaim := by
  intro h
  have h1 := h (fun _ => Except.ok "hi") "p" {}
    ⟨"", "", "", "", "", "", ""⟩ (by decide)
  have h2 : (callAI (fun _ => Except.ok "hi") "p"
      (some ⟨"", "", "", "", "", "", ""⟩) {}).1 =
      [ProviderRequest.gemini "" "gemini-2.5-flash-lite" "p"] := rfl
  rw [h1] at h2
  exact List.noConfusion h2

/-- C10 (amended): any NON-EMPTY provider string other than `gemini`,
`nvidia`, `opencode` makes callAI return `\x7b text: '', error: 'Unknown API
provider' \x7d` without issuing any provider request; the empty string instead
selects the default gemini branch. -/
theorem c10_unknown_provider :
    ∀ (net : ProviderRequest → Except String String) (prompt : String)
      (options : AIOptions) (st : UserSettings),
      st.apiProvider ≠ "" →
      st.apiProvider ∉ (["gemini", "nvidia", "opencode"] : List String) →
      callAI net prompt (some st) options =
        ([], ⟨"", some "Unknown API provider"⟩) := by
  intro net prompt options st hne hnotin
  simp only [List.mem_cons, List.mem_singleton, not_or] at hnotin
  obtain ⟨hg, hn, ho⟩ := by simpa using hnotin
  unfold callAI
  simp [hne, hg, hn, ho]

/-- Witness for the amended C10 at the provider string `deepseek`. -/
theorem c10_unknown_provider_witness :
    callAI (fun _ => Except.ok "hi") "p"
      (some ⟨"deepseek", "k", "k", "k", "m", "m", "m"⟩) {} =
      ([], ⟨"", some "Unknown API provider"⟩) :=
  c10_unknown_provider (fun _ => Except.ok "hi") "p" {}
    ⟨"deepseek", "k", "k", "k", "m", "m", "m"⟩ (by decide) (by decide)

/-! ## The Factory screen's extraction loop (handleProcess)

`handleProcess` loops `while (requestCount < 3)`: it awaits one
`extractVocabulary` call, breaks immediately on an empty result, merges the
returned items into `allWords` skipping case-insensitive duplicates, then
breaks when the RAW returned batch has fewer than 10 items or the accumulated
list has reached 25.  The sequence of batches the provider would return is the
loop's oracle, indexed by call number. -/

/-- One vocabulary item as typed in FactoryScreen's `allWords` accumulator. -/
structure VocabWord where
  word : String
  meaning : String
  level : String
  exampleEn : String
  exampleZh : String
  sentence : String
  sentenceEn : String
  replaceWord : String
  deriving Repr, DecidableEq

/-- Per-character model of `String.prototype.toLowerCase` (ASCII-exact; the
vocabulary words it is applied to are English). -/
def jsToLower (s : String) : String := ⟨s.data.map Char.toLower⟩

/-- The merge loop body: push each incoming item unless some accumulated item
has the same word up to `toLowerCase`. -/
def mergeNew (acc : List VocabWord) (ws : List VocabWord) : List VocabWord :=
  ws.foldl
    (fun a w =>
      if a.any (fun existing => jsToLower existing.word == jsToLower w.word) then a
      else a ++ [w])
    acc

/-- The while-loop of `handleProcess`, returning the accumulated deduplicated
items and the number of `extractVocabulary` calls performed.  `fuel` is the
remaining iteration budget (`maxRequests - requestCount`). -/
def extractLoopGo (responses : Nat → List VocabWord) :
    Nat → Nat → List VocabWord → List VocabWord × Nat
  | 0, count, acc => (acc, count)
  | fuel + 1, count, acc =>
    let result := responses count
    if result.length = 0 then (acc, count + 1)
    else
      let acc' := mergeNew acc result
      if result.length < 10 then (acc', count + 1)
      else if 25 ≤ acc'.length then (acc', count + 1)
      else extractLoopGo responses fuel (count + 1) acc'

/-- The extraction loop with `maxRequests = 3`, an empty accumulator, and
`requestCount = 0`. -/
def extractLoop (responses : Nat → List VocabWord) : List VocabWord × Nat :=
  extractLoopGo responses 3 0 []

/-- Claim C3 as stated: the loop stops as soon as a call contributes fewer
than 10 NEW (case-insensitively deduplicated against the accumulator) items;
in particular a first call with fewer than 10 new words ends the loop after
exactly one iteration. -/
def extractionLoopClaim : Prop :=
  ∀ responses : Nat → List VocabWord,
    (mergeNew [] (responses 0)).length < 10 →
    (extractLoop responses).2 = 1

/-- C3 counterexample: a first batch of ten case-insensitive duplicates of one
word contributes a single new item, yet its RAW length 10 passes the
`result.words.length < 10` break test, so the loop performs a second call. -/
theorem c3_extraction_loop_counterexample : ¬ extractionLoopClaim := by
  intro h
  have h1 := h
    (fun k => if k = 0 then List.replicate 10 ⟨"alpha", "", "", "", "", "", "", ""⟩ else [])
    (by decide)
  have h2 : (extractLoop
      (fun k => if k = 0 then List.replicate 10 ⟨"alpha", "", "", "", "", "", "", ""⟩
       else [])).2 = 2 := by decide
  rw [h1] at h2
  exact absurd h2 (by decide)

/-- C3 (amended): the loop performs at most 3 calls; the break tests use the
RAW returned batch size, not the new-item count: call k+1 happens exactly when
every earlier call returned at least 10 raw items and left the accumulator
below 25.  In particular a first call returning fewer than 10 raw items (new
or not) ends the loop after exactly one call. -/
theorem c3_extraction_loop :
    ∀ responses : Nat → List VocabWord,
      (extractLoop responses).2 ≤ 3 ∧
      (extractLoop responses).2 =
        (if (responses 0).length < 10 ∨ 25 ≤ (mergeNew [] (responses 0)).length then 1
         else if (responses 1).length < 10 ∨
             25 ≤ (mergeNew (mergeNew [] (responses 0)) (responses 1)).length then 2
         else 3) ∧
      ((responses 0).length < 10 → (extractLoop responses).2 = 1) := by
  intro responses
  have key : (extractLoop responses).2 =
      (if (responses 0).length < 10 ∨ 25 ≤ (mergeNew [] (responses 0)).length then 1
       else if (responses 1).length < 10 ∨
           25 ≤ (mergeNew (mergeNew [] (responses 0)) (responses 1)).length then 2
       else 3) := by
    unfold extractLoop extractLoopGo
    by_cases hz0 : (responses 0).length = 0
    · have hlt : (responses 0).length < 10 := by omega
      simp [hz0, hlt]
    · rw [if_neg hz0]
      by_cases hl0 : (responses 0).length < 10
      · simp [hl0]
      · rw [if_neg hl0]
        by_cases hc0 : 25 ≤ (mergeNew [] (responses 0)).length
        · simp [hc0, hl0]
        · rw [if_neg hc0, if_neg (by simp [hl0, hc0])]
          unfold extractLoopGo
          by_cases hz1 : (responses 1).length = 0
          · have hlt : (responses 1).length < 10 := by omega
            simp [hz1, hlt]
          · rw [if_neg hz1]
            by_cases hl1 : (responses 1).length < 10
            · simp [hl1]
            · rw [if_neg hl1]
              by_cases hc1 : 25 ≤ (mergeNew (mergeNew [] (responses 0)) (responses 1)).length
              · simp [hc1, hl1]
              · rw [if_neg hc1, if_neg (by simp [hl1, hc1])]
                unfold extractLoopGo
                dsimp only
                split
                · rfl
                · split
                  · rfl
                  · split
                    · rfl
                    · rfl
  refine ⟨?_, key, ?_⟩
  · rw [key]
    split
    · omega
    · split <;> omega
  · intro h0
    rw [key, if_pos (Or.inl h0)]

/-- Witness for the amended C3: a first batch of 3 items stops the loop after
one call, and the call-count characterization evaluates there. -/
theorem c3_extraction_loop_witness :
    (extractLoop (fun _ => List.replicate 3 ⟨"alpha", "", "", "", "", "", "", ""⟩)).2 = 1 :=
  (c3_extraction_loop
    (fun _ => List.replicate 3 ⟨"alpha", "", "", "", "", "", "", ""⟩)).2.2 (by decide)

/-! ## Song deletion (HistoryScreen.handleDeleteSong)

Deleting a song removes it from `songs` by id, removes every source whose
`songTitle` equals the deleted song's title, and removes the words whose id
appears among that song's sources but among no remaining source. -/

/-- The store's `Word` entity (`example` is a Lean keyword, hence
`exampleEn`). -/
structure Word where
  id : String
  word : String
  meaning : String
  exampleEn : String
  exampleZh : String
  level : String
  isMastered : Bool
  createdAt : Int
  deriving Repr, DecidableEq

/-- The store's `Source` entity. -/
structure Source where
  id : String
  wordId : String
  songTitle : String
  artist : String
  lyricSentence : String
  lyricSentenceEn : String
  lyricTranslated : String
  replaceWord : String
  deriving Repr, DecidableEq

/-- The store's `Song` entity. -/
structure Song where
  id : String
  title : String
  artist : String
  language : String
  lyrics : String
  status : String
  createdAt : Int
  deriving Repr, DecidableEq

/-- Embedding of the delete handler's state computation: the three updated
collections written back to storage and the store.  (The JS `Set`s only serve
membership tests, modelled by list membership.) -/
def handleDeleteSong (songs : List Song) (sources : List Source) (words : List Word)
    (song : Song) : List Song × List Source × List Word :=
  let songSources := sources.filter (fun s => s.songTitle == song.title)
  let songWordIds := songSources.map Source.wordId
  let remainingSources := sources.filter (fun s => !(s.songTitle == song.title))
  let otherWordIds := remainingSources.map Source.wordId
  let wordsToDelete := songWordIds.filter (fun i => !otherWordIds.contains i)
  (songs.filter (fun s => !(s.id == song.id)),
   remainingSources,
   words.filter (fun w => !wordsToDelete.contains w.id))

/-- Claim C4 as stated: deletion removes the song, exactly the sources with
the deleted song's title, and exactly the words left with zero remaining
sources — i.e. the surviving words are exactly those with a remaining
source. -/
def songDeletionClaim : Prop :=
  ∀ (songs : List Song) (sources : List Source) (words : List Word) (song : Song),
    song ∈ songs →
    handleDeleteSong songs sources words song =
      (songs.filter (fun s => !(s.id == song.id)),
       sources.filter (fun s => !(s.songTitle == song.title)),
       words.filter (fun w =>
         sources.any (fun s => !(s.songTitle == song.title) && s.wordId == w.id)))

/-- C4 counterexample: a word with no sources at all has zero remaining
sources after any deletion, yet the handler only deletes words referenced by
the deleted song's sources, so the orphan survives. -/
theorem c4_song_deletion_counterexample : ¬ songDeletionClaim := by
  intro h
  have h1 := h [⟨"s1", "T", "", "en", "", "completed", 0⟩] []
    [⟨"w1", "alpha", "m", "e", "ez", "B2", false, 0⟩]
    ⟨"s1", "T", "", "en", "", "completed", 0⟩ (by simp)
  have h2 := congrArg (fun t => t.2.2) h1
  exact absurd h2 (by decide)

/-- C4 (amended): deletion removes the song by id and exactly the sources
carrying the deleted song's title; a word with a source from another song
survives, a word referenced only by the deleted song's sources is removed,
and a word with no sources at all also survives (it is NOT pruned, contrary
to the claim's "exactly ... zero remaining Sources"). -/
theorem c4_song_deletion :
    ∀ (songs : List Song) (sources : List Source) (words : List Word) (song : Song),
      song ∈ songs →
      (handleDeleteSong songs sources words song).1 =
          songs.filter (fun s => !(s.id == song.id)) ∧
      (handleDeleteSong songs sources words song).2.1 =
          sources.filter (fun s => !(s.songTitle == song.title)) ∧
      (∀ w ∈ words,
        (∃ s ∈ sources, s.wordId = w.id ∧ s.songTitle ≠ song.title) →
        w ∈ (handleDeleteSong songs sources words song).2.2) ∧
      (∀ w ∈ words,
        (∃ s ∈ sources, s.wordId = w.id ∧ s.songTitle = song.title) →
        (¬ ∃ s ∈ sources, s.wordId = w.id ∧ s.songTitle ≠ song.title) →
        w ∉ (handleDeleteSong songs sources words song).2.2) ∧
      (∀ w ∈ words, (¬ ∃ s ∈ sources, s.wordId = w.id) →
        w ∈ (handleDeleteSong songs sources words song).2.2) := by
  intro songs sources words song _hmem
  refine ⟨rfl, rfl, ?_, ?_, ?_⟩
  · intro w hw ⟨s, hs, hsw, hst⟩
    unfold handleDeleteSong
    simp only [List.mem_filter, List.mem_map]
    refine ⟨hw, ?_⟩
    simp only [Bool.not_eq_true', Bool.not_eq_false]
    rw [List.contains_eq_any_beq]
    simp only [List.any_eq_false]
    intro i hi
    simp only [List.mem_filter, List.mem_map] at hi
    obtain ⟨⟨s', hs', rfl⟩, hnot⟩ := hi
    simp only [Bool.not_eq_true'] at hnot
    intro hbeq
    have hiw : s'.wordId = w.id := (by simpa using hbeq : w.id = s'.wordId).symm
    rw [List.contains_eq_any_beq] at hnot
    simp only [List.any_eq_false] at hnot
    have := hnot s.wordId (by
      simp only [List.mem_map, List.mem_filter]
      exact ⟨s, ⟨hs, by simpa using hst⟩, rfl⟩)
    exact this (by simp [hiw, hsw])
  · intro w hw ⟨s, hs, hsw, hst⟩ hnone
    unfold handleDeleteSong
    simp only [List.mem_filter]
    rintro ⟨-, hcon⟩
    simp only [Bool.not_eq_true'] at hcon
    rw [List.contains_eq_any_beq] at hcon
    simp only [List.any_eq_false] at hcon
    have := hcon w.id (by
      simp only [List.mem_filter, List.mem_map]
      refine ⟨⟨s, by simp [hs, hst], hsw⟩, ?_⟩
      simp only [Bool.not_eq_true']
      rw [List.contains_eq_any_beq]
      simp only [List.any_eq_false]
      intro s' hs'
      simp only [List.mem_map, List.mem_filter] at hs'
      obtain ⟨s'', ⟨hs'', hother⟩, rfl⟩ := hs'
      intro hbeq
      exact hnone ⟨s'', hs'', (by simpa using hbeq : w.id = s''.wordId).symm, by simpa using hother⟩)
    exact this (by simp)
  · intro w hw hnone
    unfold handleDeleteSong
    simp only [List.mem_filter]
    refine ⟨hw, ?_⟩
    simp only [Bool.not_eq_true']
    rw [List.contains_eq_any_beq]
    simp only [List.any_eq_false]
    intro i hi
    simp only [List.mem_filter, List.mem_map] at hi
    obtain ⟨⟨s', hs', rfl⟩, -⟩ := hi
    intro hbeq
    exact hnone ⟨s', hs'.1, (by simpa using hbeq : w.id = s'.wordId).symm⟩

/-- Witness for the amended C4 on a two-song state: deleting song `A` keeps
the word shared with song `B`, removes the word only `A` references, and keeps
an orphan word. -/
theorem c4_song_deletion_witness :
    (handleDeleteSong
      [⟨"s1", "A", "", "en", "", "completed", 0⟩, ⟨"s2", "B", "", "en", "", "completed", 0⟩]
      [⟨"src1", "w1", "A", "", "", "", "", ""⟩, ⟨"src2", "w1", "B", "", "", "", "", ""⟩,
       ⟨"src3", "w2", "A", "", "", "", "", ""⟩]
      [⟨"w1", "alpha", "", "", "", "B2", false, 0⟩, ⟨"w2", "beta", "", "", "", "B2", false, 0⟩,
       ⟨"w3", "gamma", "", "", "", "B2", false, 0⟩]
      ⟨"s1", "A", "", "en", "", "completed", 0⟩).2.2 =
      [⟨"w1", "alpha", "", "", "", "B2", false, 0⟩, ⟨"w3", "gamma", "", "", "", "B2", false, 0⟩] ∧
    (⟨"w1", "alpha", "", "", "", "B2", false, 0⟩ : Word) ∈
      (handleDeleteSong
        [⟨"s1", "A", "", "en", "", "completed", 0⟩, ⟨"s2", "B", "", "en", "", "completed", 0⟩]
        [⟨"src1", "w1", "A", "", "", "", "", ""⟩, ⟨"src2", "w1", "B", "", "", "", "", ""⟩,
         ⟨"src3", "w2", "A", "", "", "", "", ""⟩]
        [⟨"w1", "alpha", "", "", "", "B2", false, 0⟩, ⟨"w2", "beta", "", "", "", "B2", false, 0⟩,
         ⟨"w3", "gamma", "", "", "", "B2", false, 0⟩]
        ⟨"s1", "A", "", "en", "", "completed", 0⟩).2.2 := by
  constructor
  · decide
  · exact (c4_song_deletion
      [⟨"s1", "A", "", "en", "", "completed", 0⟩, ⟨"s2", "B", "", "en", "", "completed", 0⟩]
      [⟨"src1", "w1", "A", "", "", "", "", ""⟩, ⟨"src2", "w1", "B", "", "", "", "", ""⟩,
       ⟨"src3", "w2", "A", "", "", "", "", ""⟩]
      [⟨"w1", "alpha", "", "", "", "B2", false, 0⟩, ⟨"w2", "beta", "", "", "", "B2", false, 0⟩,
       ⟨"w3", "gamma", "", "", "", "B2", false, 0⟩]
      ⟨"s1", "A", "", "en", "", "completed", 0⟩ (by simp)).2.2.1
      ⟨"w1", "alpha", "", "", "", "B2", false, 0⟩ (by simp)
      ⟨⟨"src2", "w1", "B", "", "", "", "", ""⟩, by simp, rfl, by simp⟩

/-! ## Practice answer submission (TreasuryScreen.submitPracticeAnswer)

The screen state touched by a submission is the running score counter and the
wrong-answer log.  The awaited evaluation result is a parameter (the network
round trip already performed); `newId` and `now` stand for the
`Date.now()`-derived id and timestamp. -/

/-- The store's `WrongAnswer` entity. -/
structure WrongAnswer where
  id : String
  wordId : String
  word : String
  meaning : String
  userAnswer : String
  correctAnswer : String
  sentence : String
  sentenceEn : String
  score : Int
  feedback : String
  songTitle : String
  createdAt : Int
  errorType : String
  deriving Repr, DecidableEq

/-- Shape of an evaluator verdict consumed by the submission handler. -/
structure EvalResult where
  isCorrect : Bool
  score : Int
  feedback : String
  deriving Repr, DecidableEq

/-- The three practice modes. -/
inductive PracticeMode where
  | fourChoice
  | fill
  | translate
  deriving Repr, DecidableEq

/-- A loaded translate question. -/
structure TranslateQuestion where
  word : String
  sentenceZh : String
  deriving Repr, DecidableEq

/-- A loaded practice sentence. -/
structure PracticeSentenceData where
  sentence : String
  sentenceZh : String
  options : List String
  deriving Repr, DecidableEq

/-- Embedding of `submitPracticeAnswer`'s state transition on
`(practiceScore, wrongAnswers)`: the early-return guard, then the
translate / fill / choice branch chain.  In the fill branch the `none` case of
`practiceSentence` is unreachable (the guard requires it to be loaded); the
embedding leaves the state unchanged there. -/
def submitPracticeAnswer (mode : PracticeMode) (evalResult : EvalResult)
    (currentWord : Word) (userAnswer : String)
    (translateQuestion : Option TranslateQuestion)
    (practiceSentence : Option PracticeSentenceData)
    (practiceScore : Nat) (wrongAnswers : List WrongAnswer)
    (newId : String) (now : Int) : Nat × List WrongAnswer :=
  if (practiceSentence.isNone ∧ mode ≠ .translate) ∨ jsTrim userAnswer = "" then
    (practiceScore, wrongAnswers)
  else
    match mode, translateQuestion with
    | .translate, some tq =>
      if evalResult.isCorrect || 70 ≤ evalResult.score then
        (practiceScore + 1, wrongAnswers)
      else
        (practiceScore, wrongAnswers ++
          [⟨newId, currentWord.id, currentWord.word, currentWord.meaning,
            jsTrim userAnswer, tq.word, tq.sentenceZh, "",
            evalResult.score, evalResult.feedback, "", now, "translate"⟩])
    | .fill, _ =>
      match practiceSentence with
      | none => (practiceScore, wrongAnswers)
      | some ps =>
        if evalResult.isCorrect || 70 ≤ evalResult.score then
          (practiceScore + 1, wrongAnswers)
        else
          (practiceScore, wrongAnswers ++
            [⟨newId, currentWord.id, currentWord.word, currentWord.meaning,
              jsTrim userAnswer, currentWord.word, ps.sentence, ps.sentenceZh,
              evalResult.score, evalResult.feedback, "", now, "fill"⟩])
    | _, _ =>
      if jsToLower (jsTrim userAnswer) == jsToLower currentWord.word then
        (practiceScore + 1, wrongAnswers)
      else
        (practiceScore, wrongAnswers ++
          [⟨newId, currentWord.id, currentWord.word, currentWord.meaning,
            jsTrim userAnswer, currentWord.word,
            (practiceSentence.map PracticeSentenceData.sentence).getD "",
            (practiceSentence.map PracticeSentenceData.sentenceZh).getD "",
            0, "Wrong answer", "", now, "4choice"⟩])

/-- C5: in the fill and translate modes, an evaluation scoring at least 70
increments the running score and appends nothing; a score below 70 with
isCorrect false appends exactly one WrongAnswer entry carrying that score, the
trimmed submitted answer, and the correct answer (the word for fill, the
question's word for translate), without incrementing the counter. -/
theorem c5_practice_scoring :
    ∀ (evalResult : EvalResult) (currentWord : Word) (userAnswer : String)
      (tq : TranslateQuestion) (ps : PracticeSentenceData)
      (practiceScore : Nat) (wrongAnswers : List WrongAnswer)
      (newId : String) (now : Int),
      jsTrim userAnswer ≠ "" →
      (70 ≤ evalResult.score →
        submitPracticeAnswer .fill evalResult currentWord userAnswer (some tq) (some ps)
            practiceScore wrongAnswers newId now = (practiceScore + 1, wrongAnswers) ∧
        submitPracticeAnswer .translate evalResult currentWord userAnswer (some tq) (some ps)
            practiceScore wrongAnswers newId now = (practiceScore + 1, wrongAnswers)) ∧
      (evalResult.score < 70 → evalResult.isCorrect = false →
        submitPracticeAnswer .fill evalResult currentWord userAnswer (some tq) (some ps)
            practiceScore wrongAnswers newId now =
          (practiceScore, wrongAnswers ++
            [⟨newId, currentWord.id, currentWord.word, currentWord.meaning,
              jsTrim userAnswer, currentWord.word, ps.sentence, ps.sentenceZh,
              evalResult.score, evalResult.feedback, "", now, "fill"⟩]) ∧
        submitPracticeAnswer .translate evalResult currentWord userAnswer (some tq) (some ps)
            practiceScore wrongAnswers newId now =
          (practiceScore, wrongAnswers ++
            [⟨newId, currentWord.id, currentWord.word, currentWord.meaning,
              jsTrim userAnswer, tq.word, tq.sentenceZh, "",
              evalResult.score, evalResult.feedback, "", now, "translate"⟩])) := by
  intro evalResult currentWord userAnswer tq ps practiceScore wrongAnswers newId now hua
  constructor
  · intro hscore
    have hcond : (evalResult.isCorrect || decide (70 ≤ evalResult.score)) = true := by
      simp [hscore]
    constructor
    · unfold submitPracticeAnswer
      rw [if_neg (by simp [hua])]
      simp [hcond]
    · unfold submitPracticeAnswer
      rw [if_neg (by simp [hua])]
      simp [hcond]
  · intro hscore hic
    have hcond : (evalResult.isCorrect || decide (70 ≤ evalResult.score)) = false := by
      rw [hic]
      simpa using by omega
    constructor
    · unfold submitPracticeAnswer
      rw [if_neg (by simp [hua])]
      simp [hcond]
    · unfold submitPracticeAnswer
      rw [if_neg (by simp [hua])]
      simp [hcond]

/-- Witness for C5 at the claim's example scores 85 and 40. -/
theorem c5_practice_scoring_witness :
    submitPracticeAnswer .fill ⟨true, 85, "很好"⟩
      ⟨"w1", "alpha", "m", "e", "ez", "B2", false, 0⟩ "alpha"
      (some ⟨"alpha", "中文"⟩) (some ⟨"The alpha.", "翻译", []⟩) 2 [] "id9" 99 =
      (3, []) ∧
    submitPracticeAnswer .fill ⟨false, 40, "不对"⟩
      ⟨"w1", "alpha", "m", "e", "ez", "B2", false, 0⟩ "beta"
      (some ⟨"alpha", "中文"⟩) (some ⟨"The alpha.", "翻译", []⟩) 2 [] "id9" 99 =
      (2, [⟨"id9", "w1", "alpha", "m", "beta", "alpha", "The alpha.", "翻译",
            40, "不对", "", 99, "fill"⟩]) := by
  constructor
  · exact ((c5_practice_scoring ⟨true, 85, "很好"⟩
      ⟨"w1", "alpha", "m", "e", "ez", "B2", false, 0⟩ "alpha"
      ⟨"alpha", "中文"⟩ ⟨"The alpha.", "翻译", []⟩ 2 [] "id9" 99 (by decide)).1
      (by decide)).1
  · exact ((c5_practice_scoring ⟨false, 40, "不对"⟩
      ⟨"w1", "alpha", "m", "e", "ez", "B2", false, 0⟩ "beta"
      ⟨"alpha", "中文"⟩ ⟨"The alpha.", "翻译", []⟩ 2 [] "id9" 99 (by decide)).2
      (by decide) (by decide)).1

/-! ## StorageService round-trip (src/services/storage.ts)

`AsyncStorage` is a string-keyed store of JSON-encoded documents;
`saveWords` writes `JSON.stringify(words)` under `@melody_words` and
`getWords` reads it back through `JSON.parse` (missing key → `[]`).  Since the
builtin pair `JSON.parse ∘ JSON.stringify` is the identity on the JSON value
domain, the store is modelled as a map from keys to JSON documents:
`encodeWord` is the JSON document `JSON.stringify` produces for one word, and
reading returns the stored document.  `decodeWordList` recovers the typed
list, witnessing that the JSON read back is deep-equal to what was written. -/

/-- The persistent key-value store, holding JSON documents. -/
def Storage : Type := String → Option Json

/-- Key under which the word bank is persisted. -/
def WORDS_KEY : String := "@melody_words"

/-- Model of `AsyncStorage.setItem`. -/
def setItem (key : String) (value : Json) (st : Storage) : Storage :=
  fun k => if k = key then some value else st k

/-- The JSON document `JSON.stringify` produces for one `Word` (the `example`
field keeps its source name). -/
def encodeWord (w : Word) : Json :=
  .obj [("id", .str w.id), ("word", .str w.word), ("meaning", .str w.meaning),
        ("example", .str w.exampleEn), ("exampleZh", .str w.exampleZh),
        ("level", .str w.level), ("isMastered", .bool w.isMastered),
        ("createdAt", .num w.createdAt)]

/-- Model of `StorageService.saveWords`. -/
def StorageService.saveWords (words : List Word) (st : Storage) : Storage :=
  setItem WORDS_KEY (.arr (words.map encodeWord)) st

/-- Model of `StorageService.getWords` up to decoding: the JSON document read
back, a missing key defaulting to the empty array exactly as in the source. -/
def StorageService.getWords (st : Storage) : Json :=
  (st WORDS_KEY).getD (.arr [])

/-- Object field lookup. -/
def jsonField : Json → String → Option Json
  | .obj fields, k => fields.lookup k
  | _, _ => none

/-- Project a JSON string. -/
def asStr : Json → Option String
  | .str s => some s
  | _ => none

/-- Project a JSON boolean. -/
def asBool : Json → Option Bool
  | .bool b => some b
  | _ => none

/-- Project a JSON number. -/
def asInt : Json → Option Int
  | .num n => some n
  | _ => none

/-- Decode one word object. -/
def decodeWord (j : Json) : Option Word := do
  let i ← (jsonField j "id").bind asStr
  let w ← (jsonField j "word").bind asStr
  let m ← (jsonField j "meaning").bind asStr
  let ex ← (jsonField j "example").bind asStr
  let exZh ← (jsonField j "exampleZh").bind asStr
  let lv ← (jsonField j "level").bind asStr
  let im ← (jsonField j "isMastered").bind asBool
  let ca ← (jsonField j "createdAt").bind asInt
  pure ⟨i, w, m, ex, exZh, lv, im, ca⟩

/-- Decode a list of word objects. -/
def decodeWordList : List Json → Option (List Word)
  | [] => some []
  | x :: xs => do
    let w ← decodeWord x
    let rest ← decodeWordList xs
    pure (w :: rest)

theorem decodeWord_encodeWord (w : Word) : decodeWord (encodeWord w) = some w := rfl

theorem decodeWordList_map (ws : List Word) :
    decodeWordList (ws.map encodeWord) = some ws := by
  induction ws with
  | nil => rfl
  | cons w ws ih =>
    simp only [List.map_cons]
    unfold decodeWordList
    rw [decodeWord_encodeWord, ih]
    rfl

/-- C9: writing a word collection and immediately reading it back yields the
very JSON document that encodes the written list — deep-equal to what was
written — and decoding recovers the original list exactly. -/
theorem c9_storage_roundtrip :
    ∀ (st : Storage) (words : List Word),
      StorageService.getWords (StorageService.saveWords words st) =
        Json.arr (words.map encodeWord) ∧
      decodeWordList (words.map encodeWord) = some words := by
  intro st words
  constructor
  · unfold StorageService.getWords StorageService.saveWords setItem
    simp
  · exact decodeWordList_map words

end MelodyLingo
